import Mathlib

/-!
Verification development for the AI expense tracker.

This file gives a shallow embedding, in Lean 4, of the core logic of the
repository: the `Expense` data model (`app/models.py`), the domain
operations of `app/services/expense_service.py` (`add_expense`,
`get_expenses`, `summarize_expenses`, `get_last_expense`, `split_expense`,
`get_most_expensive_expense`), and the dispatch router of the
`POST /api/ask` endpoint (`app/main.py`, function `ask`).

Modelling conventions:
* Python floats are modelled as rationals (`Rat`); the non-finite float
  literals (`inf`, `nan`) accepted by Python's `float()` are outside the
  model.
* Python `datetime` values are modelled by `PyDateTime` (a calendar date
  plus a second-of-day); chronological comparison is via an injective
  numeric key, which on in-range values agrees with the lexicographic
  (year, month, day, second) order that `datetime` comparison uses.
* The SQLite store is modelled by `Store`: the `expense` table as a list
  of rows in insertion (rowid) order, the autoincrement counter, and a
  log of SQL statements that were handed to the engine by the `run_sql`
  branch (used to express "the statement never reaches the store").
* External collaborators are parameters: `datetime.now(ZoneInfo
  "Asia/Kolkata")` is the `now` argument; the LLM call
  `ai_svc.parse_expense(text)` made inside the `get_last_expense` branch
  is the `parseFallback` argument (`Except Unit ArgsMap`, `.error` for a
  raised exception); the JSON text in a function call's `arguments` field
  is represented by its `json.loads` decode result.
* Python `str` operations (`strip`, `title`, `lower`, `startswith`) are
  embedded at the level of character codes (`Nat`), covering the ASCII
  fragment these strings live in.
-/

namespace ExpTracker

/-! ## JSON-like argument values

The arguments the classifier returns decode (via `json.loads`) to Python
objects; `JValue` is their model. -/

inductive JValue where
  | null
  | bool (b : Bool)
  | num (q : Rat)
  | str (s : String)
  | arr (l : List JValue)
  | obj (l : List (String × JValue))

/-- Argument mappings (decoded JSON objects) as association lists. -/
abbrev ArgsMap := List (String × JValue)

/-- Python `dict.get(k)`: the first binding of `k`, or `None` when absent. -/
def getArg (m : ArgsMap) (k : String) : Option JValue :=
  (m.find? (fun p => p.1 == k)).map (fun p => p.2)

/-- Python truthiness (`if v:`) of a decoded JSON value. -/
def pyTruthy : JValue → Bool
  | .null => false
  | .bool b => b
  | .num q => q != 0
  | .str s => !s.isEmpty
  | .arr l => !l.isEmpty
  | .obj l => !l.isEmpty

/-! ## Character-code level string operations

Python's `str.strip` / `str.title` / `str.lower` / `str.startswith`,
embedded on ASCII character codes. -/

/-- ASCII uppercase letter. -/
def isUpCode (n : Nat) : Bool := 65 ≤ n && n ≤ 90

/-- ASCII lowercase letter. -/
def isLowCode (n : Nat) : Bool := 97 ≤ n && n ≤ 122

/-- ASCII letter (the cased characters of the ASCII fragment). -/
def isAlphaCode (n : Nat) : Bool := isUpCode n || isLowCode n

/-- Whitespace for `str.strip`: space, tab, LF, VT, FF, CR. -/
def isSpaceCode (n : Nat) : Bool :=
  n == 32 || n == 9 || n == 10 || n == 11 || n == 12 || n == 13

/-- Lower-casing of one character code (`str.lower`, ASCII fragment). -/
def lowCode (n : Nat) : Nat := if isUpCode n then n + 32 else n

/-- Upper-casing of one character code (ASCII fragment). -/
def upCode (n : Nat) : Nat := if isLowCode n then n - 32 else n

/-- Character codes of a string. -/
def strCodes (s : String) : List Nat := s.data.map Char.toNat

/-- Rebuild a string from character codes. -/
def codesStr (l : List Nat) : String := ⟨l.map Char.ofNat⟩

/-- Python `str.strip()` on codes: drop whitespace from both ends. -/
def stripCodes (l : List Nat) : List Nat :=
  ((l.dropWhile isSpaceCode).reverse.dropWhile isSpaceCode).reverse

/-- Python `str.title()` on codes: upper-case a cased character that
follows a non-cased one, lower-case a cased character that follows a
cased one. The Boolean state is "previous character was cased". -/
def titleCodes : Bool → List Nat → List Nat
  | _, [] => []
  | prevAlpha, c :: cs =>
    (if isAlphaCode c then (if prevAlpha then lowCode c else upCode c) else c)
      :: titleCodes (isAlphaCode c) cs

/-- Python `s.strip()`. -/
def pyStrip (s : String) : String := codesStr (stripCodes (strCodes s))

/-- Python `s.title()`. -/
def pyTitle (s : String) : String := codesStr (titleCodes false (strCodes s))

/-- Python `s.lower()`. -/
def pyLower (s : String) : String := codesStr ((strCodes s).map lowCode)

/-- Python `s.startswith(pat)`. -/
def startsWithA (pat s : String) : Bool := (strCodes pat).isPrefixOf (strCodes s)

/-! ## Dates and datetimes -/

/-- A calendar date (proleptic Gregorian, as Python's `datetime.date`). -/
structure PyDate where
  year : Nat
  month : Nat
  day : Nat
deriving Repr, DecidableEq

/-- Gregorian leap year test. -/
def isLeapYear (y : Nat) : Bool :=
  (y % 4 == 0 && y % 100 != 0) || y % 400 == 0

/-- Days in a month of a year. -/
def daysInMonth (y m : Nat) : Nat :=
  if m == 2 then (if isLeapYear y then 29 else 28)
  else if m == 4 || m == 6 || m == 9 || m == 11 then 30
  else 31

/-- Python's `date + timedelta(days=1)`: the next calendar day. -/
def PyDate.addDay (d : PyDate) : PyDate :=
  if d.day < daysInMonth d.year d.month then ⟨d.year, d.month, d.day + 1⟩
  else if d.month < 12 then ⟨d.year, d.month + 1, 1⟩
  else ⟨d.year + 1, 1, 1⟩

/-- A point in time: a calendar date plus the second within the day.
Models Python's `datetime` at second resolution. -/
structure PyDateTime where
  date : PyDate
  sec : Nat
deriving Repr, DecidableEq

/-- An injective numeric key realising chronological order: on in-range
values (`month ≤ 12`, `day ≤ 31`, `sec < 86400`) it orders exactly as the
lexicographic (year, month, day, sec) comparison Python's `datetime` uses. -/
def PyDateTime.key (t : PyDateTime) : Nat :=
  ((t.date.year * 13 + t.date.month) * 32 + t.date.day) * 86400 + t.sec

/-- Chronological comparison of datetimes (`≤`). -/
def dtLe (a b : PyDateTime) : Bool := a.key ≤ b.key

/-- Chronological comparison of datetimes (`<`). -/
def dtLt (a b : PyDateTime) : Bool := a.key < b.key

/-- Midnight of a date: what `datetime.fromisoformat("YYYY-MM-DD")`
produces. -/
def PyDate.midnight (d : PyDate) : PyDateTime := ⟨d, 0⟩

/-- Decimal digit codes to a number; `none` when empty or non-digit. -/
def digitsVal : List Nat → Option Nat
  | [] => none
  | l => l.foldl (fun acc c =>
      match acc with
      | none => none
      | some v => if 48 ≤ c && c ≤ 57 then some (v * 10 + (c - 48)) else none)
      (some 0)

/-- Python `datetime.fromisoformat` restricted to the calendar-date form
the spec's filters use: exactly `YYYY-MM-DD` with a valid calendar date;
anything else raises `ValueError` (`none` here). -/
def fromIsoDate (s : String) : Option PyDate :=
  match strCodes s with
  | [y1, y2, y3, y4, h1, m1, m2, h2, d1, d2] =>
    if h1 == 45 && h2 == 45 then
      match digitsVal [y1, y2, y3, y4], digitsVal [m1, m2], digitsVal [d1, d2] with
      | some y, some m, some d =>
        if 1 ≤ m && m ≤ 12 && 1 ≤ d && d ≤ daysInMonth y m then
          some ⟨y, m, d⟩
        else none
      | _, _, _ => none
    else none
  | _ => none

/-! ## Python float coercion -/

/-- Value of a digit-code list read as a decimal integer, `none` if empty
or containing a non-digit. Helper for `parseFloatStr`. -/
def mantissaVal (l : List Nat) : Option Nat := digitsVal l

/-- Python `float(s)` on a decimal literal: optional surrounding
whitespace, optional sign, digits with an optional point (at least one
digit overall), optional exponent. Digit-group underscores and the
non-finite literals `inf`/`infinity`/`nan` (which produce non-finite
floats, outside the rational model) are not represented. -/
def parseFloatStr (s : String) : Option Rat :=
  let l := stripCodes (strCodes s)
  let (sign, l) :=
    match l with
    | 43 :: rest => ((1 : Rat), rest)
    | 45 :: rest => ((-1 : Rat), rest)
    | _ => ((1 : Rat), l)
  let isDigit := fun (c : Nat) => 48 ≤ c && c ≤ 57
  let intPart := l.takeWhile isDigit
  let rest := l.dropWhile isDigit
  let (fracPart, rest) :=
    match rest with
    | 46 :: r => (r.takeWhile isDigit, r.dropWhile isDigit)
    | _ => ([], rest)
  if intPart.isEmpty && fracPart.isEmpty then none
  else
    let mant : Rat :=
      ((digitsVal (intPart ++ fracPart)).getD 0 : Nat) / ((10 : Rat) ^ fracPart.length)
    match rest with
    | [] => some (sign * mant)
    | e :: r =>
      if e == 101 || e == 69 then
        let (esign, r) :=
          match r with
          | 43 :: r2 => (true, r2)
          | 45 :: r2 => (false, r2)
          | _ => (true, r)
        match digitsVal r with
        | some ev =>
          if (r.all isDigit) then
            some (sign * mant * (if esign then (10 : Rat) ^ ev else 1 / (10 : Rat) ^ ev))
          else none
        | none => none
      else none

/-- Python `float(v)` on a decoded JSON value: numbers are themselves,
booleans are 0/1, numeric strings parse; `None`, lists and dicts raise
`TypeError` (`none` here). -/
def pyFloat : JValue → Option Rat
  | .num q => some q
  | .bool b => some (if b then 1 else 0)
  | .str s => parseFloatStr s
  | .null => none
  | .arr _ => none
  | .obj _ => none

/-! ## The data model and the store

`app/models.py`: class `Expense(SQLModel, table=True)`. -/

/-- A row of the `expense` table. -/
structure Expense where
  id : Option Int
  timestamp : PyDateTime
  amount : Rat
  category : Option String
  description : Option String
  raw_nl : String
  participants : Option (List String)
deriving Repr, DecidableEq

/-- The SQLite store: the `expense` table rows in rowid (insertion)
order, the autoincrement counter for the next primary key, and the log of
SQL statement texts the `run_sql` branch has handed to the engine. -/
structure Store where
  expenses : List Expense
  nextId : Int
  sqlLog : List String
deriving Repr, DecidableEq

/-! ## Domain operations (`app/services/expense_service.py`) -/

/-- String value of an optional argument; non-string values are treated
as absent (the model covers the string-or-missing payloads the argument
schemas declare). -/
def getStrArg (m : ArgsMap) (k : String) : Option String :=
  match getArg m k with
  | some (.str s) => some s
  | _ => none

/-- Category normalisation of `add_expense` (lines 26-31):
`raw_cat = parsed.get("category"); if raw_cat: cat =
raw_cat.strip().title(); else: cat = None`. A truthy non-string value has
no `.strip()` and raises `AttributeError`. -/
def normCategory (v : Option JValue) : Except String (Option String) :=
  match v with
  | none => .ok none
  | some jv =>
    if pyTruthy jv then
      match jv with
      | .str s => .ok (some (pyTitle (pyStrip s)))
      | _ => .error "AttributeError: strip"
    else .ok none

/-- The amount of `add_expense`: `float(parsed.get("amount", 0))` —
the default `0` applies only when the key is missing. -/
def amountOf (m : ArgsMap) : Option Rat :=
  pyFloat ((getArg m "amount").getD (.num 0))

/-- `add_expense(parsed, raw_nl)` (expense_service.py lines 11-43).
The timestamp is `datetime.now(tz=ZoneInfo("Asia/Kolkata"))`, passed here
as `now`; any `date` in `parsed` is never read. The row is built (raising
on a bad category or amount — before the session that persists it is
opened) and then inserted. `participants` is not among the constructor
arguments, so it keeps its `None` default. -/
def add_expense (now : PyDateTime) (parsed : ArgsMap) (raw_nl : String)
    (st : Store) : Except String (Expense × Store) :=
  match normCategory (getArg parsed "category") with
  | .error e => .error e
  | .ok cat =>
    match amountOf parsed with
    | none => .error "ValueError: could not convert to float"
    | some amt =>
      let e : Expense :=
        { id := some st.nextId
          timestamp := now
          amount := amt
          category := cat
          description := getStrArg parsed "description"
          raw_nl := raw_nl
          participants := none }
      .ok (e, { st with expenses := st.expenses ++ [e], nextId := st.nextId + 1 })

/-- The start-date filter of `get_expenses` / `summarize_expenses`: a
falsy (absent or empty) value applies no filter; `datetime.fromisoformat`
failing (`ValueError`) skips the filter; otherwise keep rows with
`timestamp >= dt`. -/
def startOk (sd : Option String) (ts : PyDateTime) : Bool :=
  match sd with
  | none => true
  | some s =>
    if s.isEmpty then true
    else
      match fromIsoDate s with
      | none => true
      | some d => dtLe d.midnight ts

/-- The end-date filter: `dt_end = fromisoformat(end_date) +
timedelta(days=1)`, keep rows with `timestamp < dt_end` (so the end date
is inclusive); falsy or unparsable values apply no filter. -/
def endOk (ed : Option String) (ts : PyDateTime) : Bool :=
  match ed with
  | none => true
  | some s =>
    if s.isEmpty then true
    else
      match fromIsoDate s with
      | none => true
      | some d => dtLt ts d.addDay.midnight

/-- The category filter: falsy values apply no filter, otherwise exact
equality with the stored category. -/
def catOk (cat : Option String) (c : Option String) : Bool :=
  match cat with
  | none => true
  | some s => if s.isEmpty then true else c == some s

/-- Row predicate of `get_expenses`'s statement. -/
def rowMatch (sd ed cat : Option String) (e : Expense) : Bool :=
  startOk sd e.timestamp && endOk ed e.timestamp && catOk cat e.category

/-- Comparison used by `ORDER BY timestamp` (ascending). -/
def tsLe (a b : Expense) : Prop := a.timestamp.key ≤ b.timestamp.key

instance : DecidableRel tsLe := fun _ _ => Nat.decLe _ _

instance : IsTotal Expense tsLe := ⟨fun _ _ => Nat.le_total _ _⟩

instance : IsTrans Expense tsLe := ⟨fun _ _ _ => Nat.le_trans⟩

/-- `get_expenses(start_date, end_date, category)` (lines 46-77):
`SELECT * FROM expense` with the three optional filters, ordered by
timestamp ascending. -/
def get_expenses (sd ed cat : Option String) (st : Store) : List Expense :=
  (st.expenses.filter (rowMatch sd ed cat)).insertionSort tsLe

/-! ## Period formatting (`func.strftime` on the timestamp) -/

/-- Two-digit zero-padded decimal. -/
def pad2 (n : Nat) : String := if n < 10 then "0" ++ toString n else toString n

/-- Four-digit zero-padded decimal. -/
def pad4 (n : Nat) : String :=
  if n < 10 then "000" ++ toString n
  else if n < 100 then "00" ++ toString n
  else if n < 1000 then "0" ++ toString n
  else toString n

/-- Days in the months strictly before month `m + 1` of year `y`. -/
def daysBeforeMonth (y : Nat) : Nat → Nat
  | 0 => 0
  | m + 1 => daysBeforeMonth y m + daysInMonth y (m + 1)

/-- Day of the year, 1-based. -/
def dayOfYear (d : PyDate) : Nat := daysBeforeMonth d.year (d.month - 1) + d.day

/-- Weekday by Zeller's congruence, Monday = 1 .. Sunday = 7. -/
def weekdayMon1 (d : PyDate) : Nat :=
  let (y, m) := if d.month ≤ 2 then (d.year - 1, d.month + 12) else (d.year, d.month)
  let k := y % 100
  let j := y / 100
  let h := (d.day + (13 * (m + 1)) / 5 + k + k / 4 + j / 4 + 5 * j) % 7
  (h + 5) % 7 + 1

/-- The `%W` week number: Monday-first weeks, days before the year's
first Monday are week 00 (equivalently, the number of Mondays on or
before the date). -/
def weekW (d : PyDate) : Nat := (dayOfYear d + 7 - weekdayMon1 d) / 7

/-- `strftime("%Y-%m-%d", ts)`. -/
def fmtDaily (d : PyDate) : String :=
  pad4 d.year ++ "-" ++ pad2 d.month ++ "-" ++ pad2 d.day

/-- `strftime("%Y-%W", ts)`. -/
def fmtWeekly (d : PyDate) : String := pad4 d.year ++ "-" ++ pad2 (weekW d)

/-- `strftime("%Y-%m", ts)`. -/
def fmtMonthly (d : PyDate) : String := pad4 d.year ++ "-" ++ pad2 d.month

/-- The period string of a timestamp under a recognised granularity
(`summarize_expenses` lines 118-125): daily `%Y-%m-%d`, weekly `%Y-%W`,
monthly `%Y-%m`. -/
def strfPeriod (g : String) (t : PyDateTime) : String :=
  if g == "daily" then fmtDaily t.date
  else if g == "weekly" then fmtWeekly t.date
  else fmtMonthly t.date

/-- The result of `summarize_expenses`: the total and the breakdown
entries (`{"period": ..., "total": ...}` rows, in result order). -/
structure Summary where
  total : Rat
  breakdown : List (String × Rat)
deriving Repr, DecidableEq

/-- `summarize_expenses(start_date, end_date, granularity)` (lines
80-139): the coalesced sum of the matching amounts, and — when the
granularity is one of daily/weekly/monthly — one bucket per distinct
period string of a matching row, each with the sum of its rows' amounts,
ordered by period ascending (`ORDER BY` on the strftime text). -/
def summarize_expenses (sd ed gran : Option String) (st : Store) : Summary :=
  let matching := st.expenses.filter (fun e => startOk sd e.timestamp && endOk ed e.timestamp)
  let total := (matching.map Expense.amount).sum
  let breakdown :=
    if gran == some "daily" || gran == some "weekly" || gran == some "monthly" then
      let g := gran.getD ""
      let ks := ((matching.map (fun e => strfPeriod g e.timestamp)).dedup).insertionSort (· ≤ ·)
      ks.map (fun k =>
        (k, ((matching.filter (fun e => strfPeriod g e.timestamp == k)).map Expense.amount).sum))
    else []
  ⟨total, breakdown⟩

/-- `ORDER BY timestamp DESC LIMIT 1` (`get_last_expense`, lines
141-159): a row of maximal timestamp, or none when the table is empty. -/
def latestOf (l : List Expense) : Option Expense :=
  l.foldl (fun acc e =>
    match acc with
    | none => some e
    | some a => if a.timestamp.key < e.timestamp.key then some e else some a) none

/-- `ORDER BY amount DESC LIMIT 1` (`get_most_expensive_expense`, lines
187-205): a row of maximal amount, or none when the table is empty. -/
def maxAmountOf (l : List Expense) : Option Expense :=
  l.foldl (fun acc e =>
    match acc with
    | none => some e
    | some a => if a.amount < e.amount then some e else some a) none

/-! ## split_expense -/

/-- The `WHERE Expense.id == expense_id` predicate. A missing or null
`expense_id` compiles to `id IS NULL`, which matches no row because `id`
is the (never-null) primary key. -/
def matchesId (eid : Option Int) (e : Expense) : Bool :=
  match eid with
  | none => false
  | some i => e.id == some i

/-- How Python prints the `expense_id` inside the not-found message. -/
def idText : Option Int → String
  | none => "None"
  | some i => toString i

/-- The resolved participant: `who = participant or "me"` — a falsy
(missing or empty) participant becomes `"me"`. -/
def resolveWho : Option String → String
  | none => "me"
  | some s => if s.isEmpty then "me" else s

/-- The mapping `split_expense` returns. -/
structure SplitResult where
  expense_id : Option Int
  participant : String
  share : Rat
deriving Repr, DecidableEq

/-- `split_expense(expense_id, participant)` (lines 161-185): look the
row up (`one_or_none`: `ValueError` when no row matches, an error also
when several do), default the participants to `["me"]` when absent or
empty, and share the amount evenly. The `except` fallback around the
division is unreachable here: the participant count is at least 1 and
rational division is total. -/
def split_expense (eid : Option Int) (participant : Option String)
    (st : Store) : Except String SplitResult :=
  match st.expenses.filter (matchesId eid) with
  | [] => .error ("Expense with id " ++ idText eid ++ " not found.")
  | [e] =>
    let parts := e.participants.getD []
    let parts := if parts.isEmpty then ["me"] else parts
    let share := e.amount / (parts.length : Rat)
    .ok ⟨eid, resolveWho participant, share⟩
  | _ :: _ :: _ => .error "MultipleResultsFound"

/-! ## The dispatch router (`app/main.py`, `ask`, lines 116-216)

The classifier's reply is `Message`; the JSON text of
`function_call["arguments"]` is represented by its decode result. -/

/-- A `function_call` entry of the assistant message. `arguments` is
`none` when the field is absent or empty (then `json.loads` runs on
`"{}"`), `some none` for text whose `json.loads` raises, and
`some (some m)` for text decoding to the mapping `m`. -/
structure FuncCall where
  name : String
  arguments : Option (Option ArgsMap)

/-- The assistant message `call_openai` returns. -/
structure Message where
  content : Option String
  function_call : Option FuncCall

/-- `json.loads(func_call.get("arguments") or "{}")` (line 128). -/
def decodeArguments : Option (Option ArgsMap) → Option ArgsMap
  | none => some []
  | some none => none
  | some (some m) => some m

/-- Integer value of an optional argument (`expense_id`); non-integer
payloads are outside the model. -/
def getIntArg (m : ArgsMap) (k : String) : Option Int :=
  match getArg m k with
  | some (.num q) => if q.den == 1 then some q.num else none
  | _ => none

/-- The policy gate of the `run_sql` branch (lines 195-196):
`sql = args.get("sql", "").strip(); sql.lower().startswith("select")`. -/
def sqlGate (s : String) : Bool := startsWithA "select" (pyLower (pyStrip s))

/-- The payload of a dispatched action, per branch of `ask`. -/
inductive AskPayload where
  | expense (e : Expense)
  | expenses (l : List Expense)
  | summary (s : Summary)
  | lastExpense (e : Option Expense)
  | mostExpensive (e : Option Expense)
  | split (r : SplitResult)
  | sqlRows (sql : String)
deriving Repr, DecidableEq

/-- What a handled `/api/ask` request produces. `response` is the
free-text fallback (`{"response": ...}`); `action` is a dispatched
operation's tagged payload; `httpError` an `HTTPException` raised in the
handler (FastAPI turns it into a client error response); `exn` an
exception the handler does not catch (FastAPI's server-error layer turns
it into a generic 500 failure without terminating the process). -/
inductive AskResult where
  | response (content : Option String)
  | action (name : String) (payload : AskPayload)
  | httpError (status : Nat) (detail : String)
  | exn (msg : String)
deriving Repr, DecidableEq

/-- Whether a result is the free-text fallback shape `{"response": ...}`. -/
def AskResult.isResponse : AskResult → Bool
  | .response _ => true
  | _ => false

/-- The `run_sql` branch past the argument lookup (lines 195-214): strip
the statement, reject non-`SELECT` text with a 400 `HTTPException`
before the engine is touched, otherwise execute it against the store
(recorded in `sqlLog`) and return its rows. -/
def runSql (s : String) (st : Store) : AskResult × Store :=
  let sql := pyStrip s
  if sqlGate s then
    (.action "run_sql" (.sqlRows sql), { st with sqlLog := st.sqlLog ++ [sql] })
  else
    (.httpError 400 "Only SELECT queries are allowed.", st)

/-- The `POST /api/ask` router (lines 116-216). `now` models
`datetime.now(ZoneInfo "Asia/Kolkata")` at this request;
`parseFallback` models the `ai_svc.parse_expense(ask_req.text)` call the
`get_last_expense` branch makes (`.error` when that call raises);
`text` is `ask_req.text`; `msg` is what `ai_svc.call_openai` returned. -/
def ask (now : PyDateTime) (parseFallback : Except Unit ArgsMap) (text : String)
    (msg : Message) (st : Store) : AskResult × Store :=
  match msg.function_call with
  | none => (.response msg.content, st)
  | some fc =>
    match decodeArguments fc.arguments with
    | none => (.exn "json.loads: JSONDecodeError", st)
    | some args =>
      if fc.name == "parse_expense" then
        match add_expense now args text st with
        | .ok (e, st') => (.action "parse_expense" (.expense e), st')
        | .error m => (.exn m, st)
      else if fc.name == "query_expenses" then
        (.action "query_expenses" (.expenses (get_expenses
          (getStrArg args "start_date") (getStrArg args "end_date")
          (getStrArg args "category") st)), st)
      else if fc.name == "summarize_expenses" then
        (.action "summarize_expenses" (.summary (summarize_expenses
          (getStrArg args "start_date") (getStrArg args "end_date")
          (getStrArg args "granularity") st)), st)
      else if fc.name == "get_last_expense" then
        match parseFallback with
        | .ok parsed =>
          match add_expense now parsed text st with
          | .ok (e, st') => (.action "parse_expense" (.expense e), st')
          | .error _ =>
            (.action "get_last_expense" (.lastExpense (latestOf st.expenses)), st)
        | .error _ =>
          (.action "get_last_expense" (.lastExpense (latestOf st.expenses)), st)
      else if fc.name == "split_expense" then
        match split_expense (getIntArg args "expense_id")
            (getStrArg args "participant") st with
        | .ok r => (.action "split_expense" (.split r), st)
        | .error m => (.exn m, st)
      else if fc.name == "get_most_expensive_expense" then
        (.action "get_most_expensive_expense"
          (.mostExpensive (maxAmountOf st.expenses)), st)
      else if fc.name == "run_sql" then
        match getArg args "sql" with
        | some (.str s) => runSql s st
        | none => runSql "" st
        | some _ => (.exn "AttributeError: strip", st)
      else
        (.response msg.content, st)

/-- The operation names the router dispatches (the `if name ==` chain of
`ask`); any other selected name falls through to line 216. -/
def knownOps : List String :=
  ["parse_expense", "query_expenses", "summarize_expenses", "get_last_expense",
   "split_expense", "get_most_expensive_expense", "run_sql"]

/-! ## Concrete fixtures for witnesses and counterexamples -/

/-- A concrete instant (used as the request's IST clock reading). -/
def dt0 : PyDateTime := ⟨⟨2025, 1, 1⟩, 36000⟩

/-- The empty store. -/
def st0 : Store := ⟨[], 1, []⟩

/-- A stored expense row with id 1. -/
def expA : Expense := ⟨some 1, dt0, 50, some "Food", some "lunch", "lunch 50", none⟩

/-- A store holding only `expA`. -/
def stA : Store := ⟨[expA], 2, []⟩

/-- A classifier message selecting `run_sql` with a non-SELECT statement. -/
def msgDrop : Message :=
  ⟨some "content", some ⟨"run_sql", some (some [("sql", .str "DROP TABLE expense")])⟩⟩

/-- A classifier message selecting `run_sql` with a SELECT statement. -/
def msgSel : Message :=
  ⟨some "content", some ⟨"run_sql", some (some [("sql", .str " select * from expense ")])⟩⟩

/-- A classifier message selecting an operation name the router does not
know, with arguments that decode fine. -/
def msgUnknown : Message := ⟨some "free text", some ⟨"mystery_op", some (some [])⟩⟩

/-- A classifier message selecting `split_expense` for expense id 99. -/
def msgSplit99 : Message := ⟨none, some ⟨"split_expense", some (some [("expense_id", .num 99)])⟩⟩

/-! ## C1: the run_sql policy gate -/

/-- Claim C1: for every `run_sql` request whose SQL string, after
stripping surrounding whitespace, does not begin with the
case-insensitive prefix `select`, the router rejects the request with a
client error (`HTTPException 400`) before any statement is executed
against the store, and the store's state — rows and engine log alike —
is unchanged; every statement that does begin with that prefix passes
the gate and is handed to the engine. -/
theorem run_sql_gate (now : PyDateTime) (pf : Except Unit ArgsMap) (text : String)
    (msg : Message) (st : Store) (fc : FuncCall) (args : ArgsMap) (s : String)
    (hfc : msg.function_call = some fc) (hname : fc.name = "run_sql")
    (hargs : decodeArguments fc.arguments = some args)
    (hsql : getArg args "sql" = some (.str s)) :
    (sqlGate s = false →
      ask now pf text msg st = (.httpError 400 "Only SELECT queries are allowed.", st))
    ∧ (sqlGate s = true →
      ask now pf text msg st =
        (.action "run_sql" (.sqlRows (pyStrip s)),
          { st with sqlLog := st.sqlLog ++ [pyStrip s] })) := by
  constructor
  · intro hg
    simp [ask, hfc, hargs, hname, hsql, runSql, hg]
  · intro hg
    simp [ask, hfc, hargs, hname, hsql, runSql, hg]

/-- Witness for C1 at concrete inputs: a `DROP TABLE` statement is
rejected with the 400 detail and the store is untouched, and a `select`
statement passes the gate. -/
theorem run_sql_gate_witness :
    ask dt0 (.error ()) "t" msgDrop st0 =
      (.httpError 400 "Only SELECT queries are allowed.", st0)
    ∧ ask dt0 (.error ()) "t" msgSel st0 =
      (.action "run_sql" (.sqlRows "select * from expense"),
        { st0 with sqlLog := ["select * from expense"] }) :=
  ⟨(run_sql_gate dt0 (.error ()) "t" msgDrop st0 _ _ "DROP TABLE expense"
      rfl rfl rfl rfl).1 (by decide),
   (run_sql_gate dt0 (.error ()) "t" msgSel st0 _ _ " select * from expense "
      rfl rfl rfl rfl).2 (by decide)⟩

/-! ## C2: when the free-text fallback is used -/

/-- Counterexample to claim C2 as stated: here the classifier result
selects an operation name (`mystery_op`, with arguments that decode to a
valid empty mapping), yet the router returns the raw free-text fallback
`{"response": message.content}` — it falls through the dispatch chain to
line 216 instead of surfacing a failure. -/
theorem ask_fallback_counterexample :
    msgUnknown.function_call.isSome = true
    ∧ decodeArguments (⟨"mystery_op", some (some [])⟩ : FuncCall).arguments = some []
    ∧ (ask dt0 (.error ()) "t" msgUnknown st0).1 = .response (some "free text") := by
  refine ⟨rfl, rfl, ?_⟩
  rfl

/-- Amended claim C2: the raw free-text fallback is produced exactly when
the classifier selected no operation at all, or when it selected an
operation whose name is none of the known ones (with arguments that
decode); a known selected operation is dispatched or surfaces a generic
failure, and a selected operation whose arguments fail to decode raises
(a generic failure), never the fallback. In every fallback case the
response carries the message content and the store is unchanged. -/
theorem ask_fallback_amended (now : PyDateTime) (pf : Except Unit ArgsMap)
    (text : String) (msg : Message) (st : Store) :
    ((ask now pf text msg st).1.isResponse = true ↔
      msg.function_call = none
      ∨ (∃ fc args, msg.function_call = some fc
          ∧ decodeArguments fc.arguments = some args ∧ fc.name ∉ knownOps))
    ∧ ((ask now pf text msg st).1.isResponse = true →
        (ask now pf text msg st) = (.response msg.content, st)) := by
  cases hfc : msg.function_call with
  | none =>
    constructor
    · simp [ask, hfc, AskResult.isResponse, knownOps]
    · intro _
      simp [ask, hfc]
  | some fc =>
    cases hargs : decodeArguments fc.arguments with
    | none =>
      constructor
      · simp [ask, hfc, hargs, AskResult.isResponse, knownOps]
      · intro h
        simp [ask, hfc, hargs, AskResult.isResponse, knownOps] at h
    | some args =>
      by_cases h1 : fc.name = "parse_expense"
      · cases hadd : add_expense now args text st with
        | ok p =>
          constructor
          · simp [ask, hfc, hargs, h1, hadd, AskResult.isResponse, knownOps]
          · intro h
            simp [ask, hfc, hargs, h1, hadd, AskResult.isResponse, knownOps] at h
        | error m =>
          constructor
          · simp [ask, hfc, hargs, h1, hadd, AskResult.isResponse, knownOps]
          · intro h
            simp [ask, hfc, hargs, h1, hadd, AskResult.isResponse, knownOps] at h
      by_cases h2 : fc.name = "query_expenses"
      · constructor
        · simp [ask, hfc, hargs, h1, h2, AskResult.isResponse, knownOps]
        · intro h
          simp [ask, hfc, hargs, h1, h2, AskResult.isResponse, knownOps] at h
      by_cases h3 : fc.name = "summarize_expenses"
      · constructor
        · simp [ask, hfc, hargs, h1, h2, h3, AskResult.isResponse, knownOps]
        · intro h
          simp [ask, hfc, hargs, h1, h2, h3, AskResult.isResponse, knownOps] at h
      by_cases h4 : fc.name = "get_last_expense"
      · rcases pf with e | parsed
        · constructor
          · simp [ask, hfc, hargs, h1, h2, h3, h4, AskResult.isResponse, knownOps]
          · intro h
            simp [ask, hfc, hargs, h1, h2, h3, h4, AskResult.isResponse, knownOps] at h
        · cases hadd : add_expense now parsed text st with
          | ok p =>
            constructor
            · simp [ask, hfc, hargs, h1, h2, h3, h4, hadd, AskResult.isResponse, knownOps]
            · intro h
              simp [ask, hfc, hargs, h1, h2, h3, h4, hadd, AskResult.isResponse, knownOps] at h
          | error m =>
            constructor
            · simp [ask, hfc, hargs, h1, h2, h3, h4, hadd, AskResult.isResponse, knownOps]
            · intro h
              simp [ask, hfc, hargs, h1, h2, h3, h4, hadd, AskResult.isResponse, knownOps] at h
      by_cases h5 : fc.name = "split_expense"
      · cases hsp : split_expense (getIntArg args "expense_id") (getStrArg args "participant") st with
        | ok r =>
          constructor
          · simp [ask, hfc, hargs, h1, h2, h3, h4, h5, hsp, AskResult.isResponse, knownOps]
          · intro h
            simp [ask, hfc, hargs, h1, h2, h3, h4, h5, hsp, AskResult.isResponse, knownOps] at h
        | error m =>
          constructor
          · simp [ask, hfc, hargs, h1, h2, h3, h4, h5, hsp, AskResult.isResponse, knownOps]
          · intro h
            simp [ask, hfc, hargs, h1, h2, h3, h4, h5, hsp, AskResult.isResponse, knownOps] at h
      by_cases h6 : fc.name = "get_most_expensive_expense"
      · constructor
        · simp [ask, hfc, hargs, h1, h2, h3, h4, h5, h6, AskResult.isResponse, knownOps]
        · intro h
          simp [ask, hfc, hargs, h1, h2, h3, h4, h5, h6, AskResult.isResponse, knownOps] at h
      by_cases h7 : fc.name = "run_sql"
      · cases hsq : getArg args "sql" with
        | none =>
          cases hg : sqlGate "" with
          | false =>
            constructor
            · simp [ask, hfc, hargs, h1, h2, h3, h4, h5, h6, h7, hsq, runSql, hg,
                AskResult.isResponse, knownOps]
            · intro h
              simp [ask, hfc, hargs, h1, h2, h3, h4, h5, h6, h7, hsq, runSql, hg,
                AskResult.isResponse, knownOps] at h
          | true =>
            constructor
            · simp [ask, hfc, hargs, h1, h2, h3, h4, h5, h6, h7, hsq, runSql, hg,
                AskResult.isResponse, knownOps]
            · intro h
              simp [ask, hfc, hargs, h1, h2, h3, h4, h5, h6, h7, hsq, runSql, hg,
                AskResult.isResponse, knownOps] at h
        | some v =>
          cases v with
          | str s =>
            cases hg : sqlGate s with
            | false =>
              constructor
              · simp [ask, hfc, hargs, h1, h2, h3, h4, h5, h6, h7, hsq, runSql, hg,
                  AskResult.isResponse, knownOps]
              · intro h
                simp [ask, hfc, hargs, h1, h2, h3, h4, h5, h6, h7, hsq, runSql, hg,
                  AskResult.isResponse, knownOps] at h
            | true =>
              constructor
              · simp [ask, hfc, hargs, h1, h2, h3, h4, h5, h6, h7, hsq, runSql, hg,
                  AskResult.isResponse, knownOps]
              · intro h
                simp [ask, hfc, hargs, h1, h2, h3, h4, h5, h6, h7, hsq, runSql, hg,
                  AskResult.isResponse, knownOps] at h
          | null =>
            constructor
            · simp [ask, hfc, hargs, h1, h2, h3, h4, h5, h6, h7, hsq,
                AskResult.isResponse, knownOps]
            · intro h
              simp [ask, hfc, hargs, h1, h2, h3, h4, h5, h6, h7, hsq,
                AskResult.isResponse, knownOps] at h
          | bool b =>
            constructor
            · simp [ask, hfc, hargs, h1, h2, h3, h4, h5, h6, h7, hsq,
                AskResult.isResponse, knownOps]
            · intro h
              simp [ask, hfc, hargs, h1, h2, h3, h4, h5, h6, h7, hsq,
                AskResult.isResponse, knownOps] at h
          | num q =>
            constructor
            · simp [ask, hfc, hargs, h1, h2, h3, h4, h5, h6, h7, hsq,
                AskResult.isResponse, knownOps]
            · intro h
              simp [ask, hfc, hargs, h1, h2, h3, h4, h5, h6, h7, hsq,
                AskResult.isResponse, knownOps] at h
          | arr l =>
            constructor
            · simp [ask, hfc, hargs, h1, h2, h3, h4, h5, h6, h7, hsq,
                AskResult.isResponse, knownOps]
            · intro h
              simp [ask, hfc, hargs, h1, h2, h3, h4, h5, h6, h7, hsq,
                AskResult.isResponse, knownOps] at h
          | obj l =>
            constructor
            · simp [ask, hfc, hargs, h1, h2, h3, h4, h5, h6, h7, hsq,
                AskResult.isResponse, knownOps]
            · intro h
              simp [ask, hfc, hargs, h1, h2, h3, h4, h5, h6, h7, hsq,
                AskResult.isResponse, knownOps] at h
      constructor
      · simp [ask, hfc, hargs, h1, h2, h3, h4, h5, h6, h7, knownOps, AskResult.isResponse, knownOps]
      · intro _
        simp [ask, hfc, hargs, h1, h2, h3, h4, h5, h6, h7]

/-- Witness for C2 (amended) at a concrete input: a message with no
function call yields the free-text fallback response. -/
theorem ask_fallback_amended_witness :
    (ask dt0 (.error ()) "t" (⟨some "hello", none⟩ : Message) st0)
      = (.response (some "hello"), st0) :=
  (ask_fallback_amended dt0 (.error ()) "t" ⟨some "hello", none⟩ st0).2 (by rfl)

/-! ## C3: split on a missing expense id -/

/-- Whether a result is a client error response (an `HTTPException` the
handler raised, which FastAPI returns as a 4xx with its detail). -/
def AskResult.isClientError : AskResult → Bool
  | .httpError _ _ => true
  | _ => false

/-- Counterexample to claim C3 as stated: splitting expense id 99 on a
store holding only id 1 makes `split_expense` raise its descriptive
`ValueError`, but the `ask` router does not catch it — the result is the
uncaught-exception outcome (FastAPI's generic 500 handler), not a
client-facing error response built at the router boundary. The store is
unchanged. -/
theorem split_uncaught_counterexample :
    (ask dt0 (.error ()) "t" msgSplit99 stA).1 = .exn "Expense with id 99 not found."
    ∧ (ask dt0 (.error ()) "t" msgSplit99 stA).1.isClientError = false
    ∧ (ask dt0 (.error ()) "t" msgSplit99 stA).2 = stA := by
  refine ⟨?_, ?_, ?_⟩ <;> rfl

/-- Amended claim C3: for every `split_expense` request whose
`expense_id` matches no stored record, the operation fails with the
descriptive not-found error; the `ask` router does not catch it, so the
failure surfaces as an unhandled exception that the framework's
server-error layer answers generically (the process is not terminated),
and the store state is unchanged by the failed request. -/
theorem split_not_found (now : PyDateTime) (pf : Except Unit ArgsMap) (text : String)
    (msg : Message) (st : Store) (fc : FuncCall) (args : ArgsMap) (eid : Option Int)
    (hfc : msg.function_call = some fc) (hname : fc.name = "split_expense")
    (hargs : decodeArguments fc.arguments = some args)
    (heid : getIntArg args "expense_id" = eid)
    (hmiss : st.expenses.filter (matchesId eid) = []) :
    ask now pf text msg st =
      (.exn ("Expense with id " ++ idText eid ++ " not found."), st) := by
  simp [ask, hfc, hargs, hname, split_expense, heid, hmiss]

/-- Witness for C3 (amended) at a concrete input: id 7 on the empty
store. -/
theorem split_not_found_witness :
    ask dt0 (.error ()) "t"
        (⟨none, some ⟨"split_expense", some (some [("expense_id", .num 7)])⟩⟩ : Message) st0
      = (.exn "Expense with id 7 not found.", st0) :=
  split_not_found dt0 (.error ()) "t" _ st0 _ _ (some 7) rfl rfl rfl rfl rfl

/-! ## C5: the get_last_expense reinterpretation fallback -/

/-- Claim C5: when the classifier selects `get_last_expense`, the router
first attempts to reinterpret the request text as a new expense — a
fresh `parse_expense` LLM call followed by `add_expense` — and, when
that succeeds, responds as a `parse_expense` action with the new record
persisted. Only when the reinterpretation raises (either the LLM parse
call or `add_expense`) does the router return the last stored expense,
and in that fallback case the store is unchanged: no new record is
added. -/
theorem get_last_fallback (now : PyDateTime) (pf : Except Unit ArgsMap)
    (text : String) (msg : Message) (st : Store) (fc : FuncCall) (args : ArgsMap)
    (hfc : msg.function_call = some fc) (hname : fc.name = "get_last_expense")
    (hargs : decodeArguments fc.arguments = some args) :
    (∀ parsed e st', pf = .ok parsed → add_expense now parsed text st = .ok (e, st') →
      ask now pf text msg st = (.action "parse_expense" (.expense e), st'))
    ∧ (∀ parsed m, pf = .ok parsed → add_expense now parsed text st = .error m →
      ask now pf text msg st =
        (.action "get_last_expense" (.lastExpense (latestOf st.expenses)), st))
    ∧ (pf = .error () →
      ask now pf text msg st =
        (.action "get_last_expense" (.lastExpense (latestOf st.expenses)), st)) := by
  refine ⟨?_, ?_, ?_⟩
  · intro parsed e st' hpf hadd
    simp [ask, hfc, hargs, hname, hpf, hadd]
  · intro parsed m hpf hadd
    simp [ask, hfc, hargs, hname, hpf, hadd]
  · intro hpf
    simp [ask, hfc, hargs, hname, hpf]

/-- Witness for C5 at concrete inputs: with a raising parse call, the
router returns the last stored expense and the store (holding `expA`) is
unchanged. -/
theorem get_last_fallback_witness :
    ask dt0 (.error ()) "t"
        (⟨none, some ⟨"get_last_expense", none⟩⟩ : Message) stA
      = (.action "get_last_expense" (.lastExpense (some expA)), stA) :=
  (get_last_fallback dt0 (.error ()) "t" ⟨none, some ⟨"get_last_expense", none⟩⟩ stA
      ⟨"get_last_expense", none⟩ [] rfl rfl rfl).2.2 rfl

/-! ## C4: what add_expense stamps and persists -/

/-- Replace (or add) the binding of key `k` in an argument mapping. -/
def setKey (m : ArgsMap) (k : String) (v : JValue) : ArgsMap :=
  (k, v) :: m.filter (fun p => !(p.1 == k))

theorem find?_filter_other (m : ArgsMap) (k k' : String) (h : k' ≠ k) :
    (m.filter (fun p => !(p.1 == k))).find? (fun p => p.1 == k')
      = m.find? (fun p => p.1 == k') := by
  induction m with
  | nil => rfl
  | cons q m ih =>
    have hkk : (k == k') = false := by
      simp
      exact fun hh => h hh.symm
    by_cases hq : q.1 = k
    · simp [List.filter_cons, hq, List.find?_cons, hkk, ih]
    · by_cases hk' : q.1 = k'
      · simp [List.filter_cons, hq, List.find?_cons, hk', h]
      · simp [List.filter_cons, hq, List.find?_cons, hk', ih]

theorem getArg_setKey_other (m : ArgsMap) (k k' : String) (v : JValue) (h : k' ≠ k) :
    getArg (setKey m k v) k' = getArg m k' := by
  unfold getArg setKey
  have hk : (k == k') = false := by
    simp
    exact fun hh => h hh.symm
  rw [List.find?_cons_of_neg _ (by simp [hk]), find?_filter_other m k k' h]

theorem add_expense_congr (now : PyDateTime) (m m' : ArgsMap) (raw : String) (st : Store)
    (h1 : getArg m "category" = getArg m' "category")
    (h2 : getArg m "amount" = getArg m' "amount")
    (h3 : getArg m "description" = getArg m' "description") :
    add_expense now m raw st = add_expense now m' raw st := by
  unfold add_expense amountOf getStrArg
  rw [h1, h2, h3]

/-- Claim C4: for every parsed argument mapping accepted by
`add_expense`, the new record's timestamp is the current time in the
fixed project timezone (the `now` argument models `datetime.now(tz =
ZoneInfo "Asia/Kolkata")`), any `date` value supplied in the arguments
is ignored (replacing the `date` binding with an arbitrary value changes
nothing), and the record — with its category, description, amount and
(always-`None`) participants — is appended to the store and returned. -/
theorem add_expense_spec (now : PyDateTime) (parsed : ArgsMap) (raw : String)
    (st : Store) (e : Expense) (st' : Store)
    (h : add_expense now parsed raw st = .ok (e, st')) :
    e.timestamp = now
    ∧ st'.expenses = st.expenses ++ [e]
    ∧ st'.sqlLog = st.sqlLog
    ∧ normCategory (getArg parsed "category") = .ok e.category
    ∧ amountOf parsed = some e.amount
    ∧ e.description = getStrArg parsed "description"
    ∧ e.raw_nl = raw
    ∧ e.participants = none
    ∧ (∀ d : JValue, add_expense now (setKey parsed "date" d) raw st = .ok (e, st')) := by
  have hdate : ∀ d : JValue,
      add_expense now (setKey parsed "date" d) raw st = add_expense now parsed raw st := by
    intro d
    exact add_expense_congr now _ parsed raw st
      (getArg_setKey_other parsed "date" "category" d (by decide))
      (getArg_setKey_other parsed "date" "amount" d (by decide))
      (getArg_setKey_other parsed "date" "description" d (by decide))
  unfold add_expense at h
  cases hc : normCategory (getArg parsed "category") with
  | error m => rw [hc] at h; simp at h
  | ok cat =>
    rw [hc] at h
    cases ha : amountOf parsed with
    | none => rw [ha] at h; simp at h
    | some amt =>
      rw [ha] at h
      simp only [Except.ok.injEq, Prod.mk.injEq] at h
      obtain ⟨he, hst⟩ := h
      subst he
      subst hst
      refine ⟨rfl, rfl, rfl, rfl, rfl, rfl, rfl, rfl, ?_⟩
      intro d
      rw [hdate d]
      unfold add_expense
      rw [hc, ha]

/-- A concrete parsed mapping (with a `date` the record must ignore). -/
def parsed0 : ArgsMap :=
  [("date", .str "2024-12-25"), ("amount", .num 12),
   ("description", .str "coffee"), ("category", .str " fOOd ")]

/-- The record `add_expense` builds from `parsed0` on the empty store. -/
def exp0 : Expense := ⟨some 1, dt0, 12, some "Food", some "coffee", "nl", none⟩

/-- The store after persisting `exp0`. -/
def stAfter0 : Store := ⟨[exp0], 2, []⟩

/-- Witness for C4 at concrete inputs: the persisted record is stamped
with `now`, appended to the store, and carries no participants. -/
theorem add_expense_spec_witness :
    exp0.timestamp = dt0
    ∧ stAfter0.expenses = st0.expenses ++ [exp0]
    ∧ exp0.participants = none
    ∧ add_expense dt0 (setKey parsed0 "date" .null) "nl" st0 = .ok (exp0, stAfter0) :=
  have h := add_expense_spec dt0 parsed0 "nl" st0 exp0 stAfter0 rfl
  ⟨h.1, h.2.1, h.2.2.2.2.2.2.2.1, h.2.2.2.2.2.2.2.2 .null⟩

/-! ## C10: a non-coercible amount raises before anything is persisted -/

/-- Claim C10: when the `amount` key is present but its value cannot be
coerced by `float(...)` (a non-numeric string, `None`, a list or a
dict), `add_expense` raises before any record is persisted — dispatching
such arguments through the router leaves the store unchanged. The
default to zero applies only when the `amount` key is missing
entirely. -/
theorem add_expense_bad_amount (now : PyDateTime) (parsed : ArgsMap) (raw : String)
    (st : Store) :
    (∀ v, getArg parsed "amount" = some v → pyFloat v = none →
      (∃ m, add_expense now parsed raw st = .error m)
      ∧ (∀ pf text msg fc, msg.function_call = some fc → fc.name = "parse_expense" →
          decodeArguments fc.arguments = some parsed →
          (ask now pf text msg st).2 = st))
    ∧ (getArg parsed "amount" = none →
        ∀ e st', add_expense now parsed raw st = .ok (e, st') → e.amount = 0) := by
  constructor
  · intro v hv hnone
    have hamt : amountOf parsed = none := by
      unfold amountOf
      rw [hv]
      exact hnone
    have herr : ∀ raw' : String, ∃ m, add_expense now parsed raw' st = .error m := by
      intro raw'
      cases hc : normCategory (getArg parsed "category") with
      | error m => exact ⟨m, by unfold add_expense; rw [hc]⟩
      | ok cat =>
        exact ⟨"ValueError: could not convert to float", by unfold add_expense; rw [hc, hamt]⟩
    refine ⟨herr raw, ?_⟩
    intro pf text msg fc hfc hname hargs
    obtain ⟨m, hm⟩ := herr text
    simp [ask, hfc, hargs, hname, hm]
  · intro hnone e st' h
    have hamt : amountOf parsed = some 0 := by
      unfold amountOf
      rw [hnone]
      rfl
    unfold add_expense at h
    cases hc : normCategory (getArg parsed "category") with
    | error m => rw [hc] at h; simp at h
    | ok cat =>
      rw [hc, hamt] at h
      simp only [Except.ok.injEq, Prod.mk.injEq] at h
      obtain ⟨he, _⟩ := h
      subst he
      rfl

/-- An argument mapping whose `amount` is a non-numeric string. -/
def parsedBad : ArgsMap := [("amount", .str "abc"), ("description", .str "x")]

/-- Witness for C10 at a concrete input: `float("abc")` raises, so
`add_expense` errors, and dispatching it leaves the store unchanged. -/
theorem add_expense_bad_amount_witness :
    (∃ m, add_expense dt0 parsedBad "nl" st0 = .error m)
    ∧ (ask dt0 (.error ()) "nl"
        (⟨none, some ⟨"parse_expense", some (some parsedBad)⟩⟩ : Message) st0).2 = st0 :=
  have h := (add_expense_bad_amount dt0 parsedBad "nl" st0).1 (.str "abc") rfl rfl
  ⟨h.1, h.2 (.error ()) "nl" ⟨none, some ⟨"parse_expense", some (some parsedBad)⟩⟩
      ⟨"parse_expense", some (some parsedBad)⟩ rfl rfl rfl⟩

/-! ## C6: equal shares -/

/-- Claim C6: for a stored expense with id `i` and a non-empty
participants list of length `n`, `split_expense` returns the expense id,
the resolved participant name, and the share `amount / n`, whatever
participant is queried; when the participants list is absent or empty
the share is the full amount, and the participant defaults to `"me"`
when none is supplied. -/
theorem split_share_spec (st : Store) (i : Int) (e : Expense) (p : Option String)
    (huniq : st.expenses.filter (matchesId (some i)) = [e]) :
    (∀ parts, e.participants = some parts → parts ≠ [] →
      split_expense (some i) p st =
        .ok ⟨some i, resolveWho p, e.amount / (parts.length : Rat)⟩)
    ∧ ((e.participants = none ∨ e.participants = some []) →
      split_expense (some i) p st = .ok ⟨some i, resolveWho p, e.amount⟩)
    ∧ (p = none → resolveWho p = "me") := by
  refine ⟨?_, ?_, ?_⟩
  · intro parts hp hne
    unfold split_expense
    rw [huniq]
    simp [hp, List.isEmpty_iff, hne]
  · intro hp
    unfold split_expense
    rw [huniq]
    rcases hp with hp | hp <;> simp [hp]
  · intro hp
    rw [hp]
    rfl

/-- A stored expense split three ways. -/
def expParts : Expense := ⟨some 2, dt0, 90, none, none, "dinner 90", some ["a", "b", "c"]⟩

/-- A store holding only `expParts`. -/
def stParts : Store := ⟨[expParts], 3, []⟩

/-- Witness for C6 at concrete inputs: amount 90 over three participants
gives share 30 for the queried participant `"b"`; with id 1 on a
one-participant-free record the full amount is returned for `"me"`. -/
theorem split_share_spec_witness :
    split_expense (some 2) (some "b") stParts = .ok ⟨some 2, "b", 30⟩
    ∧ split_expense (some 1) none stA = .ok ⟨some 1, "me", 50⟩ := by
  constructor
  · rw [(split_share_spec stParts 2 expParts (some "b") rfl).1 ["a", "b", "c"] rfl
      (by decide)]
    norm_num [expParts, resolveWho]
    decide
  · rw [(split_share_spec stA 1 expA none rfl).2.1 (Or.inl rfl)]
    rfl

/-! ## C9: category canonicalisation

Two strings "differ only in casing" when their character codes agree
after `lowCode`. The lemmas below show `strip` and `title` cannot tell
such strings apart, so the stored categories coincide. -/

theorem lowCode_cases (a b : Nat) (h : lowCode a = lowCode b) :
    a = b ∨ (isUpCode a = true ∧ b = a + 32) ∨ (isUpCode b = true ∧ a = b + 32) := by
  unfold lowCode at h
  cases hua : isUpCode a <;> cases hub : isUpCode b <;> simp [hua, hub] at h
  · exact Or.inl h
  · exact Or.inr (Or.inr ⟨rfl, h⟩)
  · exact Or.inr (Or.inl ⟨rfl, h.symm⟩)
  · exact Or.inl (by omega)

theorem isUpCode_range (n : Nat) (h : isUpCode n = true) : 65 ≤ n ∧ n ≤ 90 := by
  simpa [isUpCode] using h

theorem isUpCode_iff (n : Nat) : isUpCode n = true ↔ 65 ≤ n ∧ n ≤ 90 := by
  simp [isUpCode]

theorem isLowCode_iff (n : Nat) : isLowCode n = true ↔ 97 ≤ n ∧ n ≤ 122 := by
  simp [isLowCode]

theorem isSpaceCode_iff (n : Nat) :
    isSpaceCode n = true ↔ n = 32 ∨ n = 9 ∨ n = 10 ∨ n = 11 ∨ n = 12 ∨ n = 13 := by
  simp [isSpaceCode]
  tauto

theorem isAlphaCode_iff (n : Nat) :
    isAlphaCode n = true ↔ (65 ≤ n ∧ n ≤ 90) ∨ (97 ≤ n ∧ n ≤ 122) := by
  simp [isAlphaCode, isUpCode, isLowCode]

theorem isSpaceCode_lowCode_eq (a b : Nat) (h : lowCode a = lowCode b) :
    isSpaceCode a = isSpaceCode b := by
  rcases lowCode_cases a b h with heq | ⟨hup, hb⟩ | ⟨hup, ha⟩
  · rw [heq]
  · have hr := isUpCode_range a hup
    subst hb
    rw [Bool.eq_iff_iff, isSpaceCode_iff, isSpaceCode_iff]
    omega
  · have hr := isUpCode_range b hup
    subst ha
    rw [Bool.eq_iff_iff, isSpaceCode_iff, isSpaceCode_iff]
    omega

theorem isAlphaCode_lowCode_eq (a b : Nat) (h : lowCode a = lowCode b) :
    isAlphaCode a = isAlphaCode b := by
  rcases lowCode_cases a b h with heq | ⟨hup, hb⟩ | ⟨hup, ha⟩
  · rw [heq]
  · have hr := isUpCode_range a hup
    subst hb
    rw [Bool.eq_iff_iff, isAlphaCode_iff, isAlphaCode_iff]
    omega
  · have hr := isUpCode_range b hup
    subst ha
    rw [Bool.eq_iff_iff, isAlphaCode_iff, isAlphaCode_iff]
    omega

theorem upCode_shift (a : Nat) (hr : 65 ≤ a ∧ a ≤ 90) : upCode a = upCode (a + 32) := by
  have hla : isLowCode a = false := by
    rw [Bool.eq_false_iff, Ne, isLowCode_iff]
    omega
  have hlb : isLowCode (a + 32) = true := by
    rw [isLowCode_iff]
    omega
  unfold upCode
  rw [hla, hlb]
  simp

theorem upCode_lowCode_eq (a b : Nat) (h : lowCode a = lowCode b) :
    upCode a = upCode b := by
  rcases lowCode_cases a b h with heq | ⟨hup, hb⟩ | ⟨hup, ha⟩
  · rw [heq]
  · have hr := isUpCode_range a hup
    subst hb
    exact upCode_shift a hr
  · have hr := isUpCode_range b hup
    subst ha
    exact (upCode_shift b hr).symm

theorem eq_of_lowCode_of_not_alpha (a b : Nat) (h : lowCode a = lowCode b)
    (hna : isAlphaCode a = false) : a = b := by
  rcases lowCode_cases a b h with heq | ⟨hup, _⟩ | ⟨hup, ha⟩
  · exact heq
  · simp [isAlphaCode, hup] at hna
  · have hr := isUpCode_range b hup
    have : ¬(isAlphaCode a = true) := by
      rw [hna]
      simp
    rw [isAlphaCode_iff] at this
    omega

theorem map_lowCode_dropWhile (l1 l2 : List Nat)
    (h : l1.map lowCode = l2.map lowCode) :
    (l1.dropWhile isSpaceCode).map lowCode = (l2.dropWhile isSpaceCode).map lowCode := by
  induction l1 generalizing l2 with
  | nil =>
    cases l2 with
    | nil => rfl
    | cons b t => simp at h
  | cons a t ih =>
    cases l2 with
    | nil => simp at h
    | cons b t2 =>
      simp only [List.map_cons, List.cons.injEq] at h
      obtain ⟨hab, ht⟩ := h
      have hsp := isSpaceCode_lowCode_eq a b hab
      rw [List.dropWhile_cons, List.dropWhile_cons, hsp]
      cases hb : isSpaceCode b with
      | true =>
        simp only [if_pos rfl]
        exact ih t2 ht
      | false =>
        rw [if_neg (by simp), if_neg (by simp)]
        simp [hab, ht]

theorem map_lowCode_stripCodes (l1 l2 : List Nat)
    (h : l1.map lowCode = l2.map lowCode) :
    (stripCodes l1).map lowCode = (stripCodes l2).map lowCode := by
  unfold stripCodes
  have h1 := map_lowCode_dropWhile l1 l2 h
  have h2 : (l1.dropWhile isSpaceCode).reverse.map lowCode
      = (l2.dropWhile isSpaceCode).reverse.map lowCode := by
    rw [List.map_reverse, List.map_reverse, h1]
  have h3 := map_lowCode_dropWhile _ _ h2
  rw [List.map_reverse, List.map_reverse, h3]

theorem titleCodes_congr (b : Bool) (l1 l2 : List Nat)
    (h : l1.map lowCode = l2.map lowCode) : titleCodes b l1 = titleCodes b l2 := by
  induction l1 generalizing b l2 with
  | nil =>
    cases l2 with
    | nil => rfl
    | cons c t2 => simp at h
  | cons a t ih =>
    cases l2 with
    | nil => simp at h
    | cons c t2 =>
      simp only [List.map_cons, List.cons.injEq] at h
      obtain ⟨hac, ht⟩ := h
      have halpha := isAlphaCode_lowCode_eq a c hac
      unfold titleCodes
      rw [halpha]
      cases hal : isAlphaCode c with
      | true =>
        rw [if_pos rfl, if_pos rfl, ih true t2 ht]
        congr 1
        cases b with
        | true => simp [hac]
        | false => simp [upCode_lowCode_eq a c hac]
      | false =>
        rw [if_neg (by simp), if_neg (by simp),
          eq_of_lowCode_of_not_alpha a c hac (halpha.trans hal), ih false t2 ht]

theorem mem_stripCodes (l : List Nat) (n : Nat) (hn : n ∈ stripCodes l) : n ∈ l := by
  unfold stripCodes at hn
  rw [List.mem_reverse] at hn
  have h1 := (List.dropWhile_sublist (l := (l.dropWhile isSpaceCode).reverse)
    (p := isSpaceCode)).mem hn
  rw [List.mem_reverse] at h1
  exact (List.dropWhile_sublist (l := l) (p := isSpaceCode)).mem h1

theorem strCodes_codesStr (l : List Nat) (h : ∀ n ∈ l, ∃ c : Char, c.toNat = n) :
    strCodes (codesStr l) = l := by
  unfold strCodes codesStr
  show (l.map Char.ofNat).map Char.toNat = l
  rw [List.map_map]
  induction l with
  | nil => rfl
  | cons a t ih =>
    rw [List.map_cons, ih (fun n hn => h n (List.mem_cons_of_mem a hn))]
    obtain ⟨c, hc⟩ := h a (List.mem_cons_self a t)
    show Char.toNat (Char.ofNat a) :: t = a :: t
    rw [← hc, Char.ofNat_toNat]

/-- Strings that differ only in casing have the same trimmed, title-cased
form. -/
theorem pyTitle_pyStrip_congr (s t : String)
    (h : (strCodes s).map lowCode = (strCodes t).map lowCode) :
    pyTitle (pyStrip s) = pyTitle (pyStrip t) := by
  unfold pyTitle pyStrip
  rw [strCodes_codesStr _ (fun n hn => by
    have := mem_stripCodes _ n hn
    unfold strCodes at this
    obtain ⟨c, _, hc⟩ := List.mem_map.mp this
    exact ⟨c, hc⟩)]
  rw [strCodes_codesStr _ (fun n hn => by
    have := mem_stripCodes _ n hn
    unfold strCodes at this
    obtain ⟨c, _, hc⟩ := List.mem_map.mp this
    exact ⟨c, hc⟩)]
  exact congrArg codesStr (titleCodes_congr false _ _ (map_lowCode_stripCodes _ _ h))

theorem add_expense_ok_category (now : PyDateTime) (parsed : ArgsMap) (raw : String)
    (st : Store) (e : Expense) (st' : Store)
    (h : add_expense now parsed raw st = .ok (e, st')) :
    normCategory (getArg parsed "category") = .ok e.category := by
  unfold add_expense at h
  cases hc : normCategory (getArg parsed "category") with
  | error m => rw [hc] at h; simp at h
  | ok cat =>
    rw [hc] at h
    cases ha : amountOf parsed with
    | none => rw [ha] at h; simp at h
    | some amt =>
      rw [ha] at h
      simp only [Except.ok.injEq, Prod.mk.injEq] at h
      obtain ⟨he, _⟩ := h
      subst he
      rfl

/-- Claim C9: a record created by `add_expense` stores, when the input
category is a present non-empty string, exactly its trimmed title-cased
form — and since that form is invariant under case changes of the input
(strings whose codes agree after lower-casing), two inputs differing
only in casing store equal categories. When the input category is
absent, the stored category is absent (`None`), not an empty string. -/
theorem category_canonical (now : PyDateTime) (parsed : ArgsMap) (raw : String)
    (st : Store) (e : Expense) (st' : Store)
    (h : add_expense now parsed raw st = .ok (e, st')) :
    (∀ s, getArg parsed "category" = some (.str s) → s.isEmpty = false →
      e.category = some (pyTitle (pyStrip s)))
    ∧ (getArg parsed "category" = none → e.category = none)
    ∧ (∀ s t : String, (strCodes s).map lowCode = (strCodes t).map lowCode →
      pyTitle (pyStrip s) = pyTitle (pyStrip t)) := by
  have hnorm := add_expense_ok_category now parsed raw st e st' h
  refine ⟨?_, ?_, ?_⟩
  · intro s hs hne
    rw [hs] at hnorm
    unfold normCategory at hnorm
    simp [pyTruthy, hne] at hnorm
    exact hnorm.symm
  · intro hs
    rw [hs] at hnorm
    unfold normCategory at hnorm
    simp at hnorm
    exact hnorm.symm
  · intro s t hst
    exact pyTitle_pyStrip_congr s t hst

/-- Witness for C9 at concrete inputs: `parsed0` stores category
`" fOOd ".strip().title()` (that is, `"Food"`), and the two case
variants `"FOOD"` / `"food"` normalise identically. -/
theorem category_canonical_witness :
    exp0.category = some (pyTitle (pyStrip " fOOd "))
    ∧ pyTitle (pyStrip "FOOD") = pyTitle (pyStrip "food") :=
  have h := category_canonical dt0 parsed0 "nl" st0 exp0 stAfter0 rfl
  ⟨h.1 " fOOd " rfl rfl, h.2.2 "FOOD" "food" rfl⟩

/-! ## C8: list filtering and ordering -/

theorem startOk_invalid (s : String) (ts : PyDateTime) (hne : s.isEmpty = false)
    (hbad : fromIsoDate s = none) : startOk (some s) ts = true := by
  simp only [startOk]
  rw [hne, hbad]
  simp

theorem endOk_invalid (s : String) (ts : PyDateTime) (hne : s.isEmpty = false)
    (hbad : fromIsoDate s = none) : endOk (some s) ts = true := by
  simp only [endOk]
  rw [hne, hbad]
  simp

/-- Claim C8: `get_expenses` returns exactly the stored records passing
the three optional filters; a valid start date keeps timestamps at or
after its midnight, a valid end date keeps timestamps strictly before
the midnight following it (end date inclusive), a non-empty category
must match the stored category exactly; the result is ordered ascending
by timestamp; and an invalid (non-ISO) date string makes that filter a
no-op instead of an error. -/
theorem get_expenses_spec (sd ed cat : Option String) (st : Store) :
    (∀ e, e ∈ get_expenses sd ed cat st ↔
      (e ∈ st.expenses ∧ startOk sd e.timestamp = true ∧ endOk ed e.timestamp = true
        ∧ catOk cat e.category = true))
    ∧ (get_expenses sd ed cat st).Sorted tsLe
    ∧ (∀ s, sd = some s → s.isEmpty = false → fromIsoDate s = none →
        get_expenses sd ed cat st = get_expenses none ed cat st)
    ∧ (∀ s, ed = some s → s.isEmpty = false → fromIsoDate s = none →
        get_expenses sd ed cat st = get_expenses sd none cat st)
    ∧ (∀ s d e, sd = some s → fromIsoDate s = some d → e ∈ get_expenses sd ed cat st →
        d.midnight.key ≤ e.timestamp.key)
    ∧ (∀ s d e, ed = some s → fromIsoDate s = some d → e ∈ get_expenses sd ed cat st →
        e.timestamp.key < d.addDay.midnight.key)
    ∧ (∀ c e, cat = some c → c.isEmpty = false → e ∈ get_expenses sd ed cat st →
        e.category = some c) := by
  have hmem : ∀ e, e ∈ get_expenses sd ed cat st ↔
      (e ∈ st.expenses ∧ rowMatch sd ed cat e = true) := by
    intro e
    unfold get_expenses
    rw [List.mem_insertionSort, List.mem_filter]
  refine ⟨?_, ?_, ?_, ?_, ?_, ?_, ?_⟩
  · intro e
    rw [hmem e]
    unfold rowMatch
    simp [Bool.and_eq_true, and_assoc]
  · exact List.sorted_insertionSort tsLe _
  · intro s hs hne hbad
    subst hs
    unfold get_expenses
    congr 1
    apply List.filter_congr
    intro e _
    unfold rowMatch
    rw [startOk_invalid s e.timestamp hne hbad]
    rfl
  · intro s hs hne hbad
    subst hs
    unfold get_expenses
    congr 1
    apply List.filter_congr
    intro e _
    unfold rowMatch
    rw [endOk_invalid s e.timestamp hne hbad]
    rfl
  · intro s d e hs hd he
    subst hs
    obtain ⟨-, hrow⟩ := (hmem e).mp he
    unfold rowMatch at hrow
    simp only [Bool.and_eq_true] at hrow
    have h1 := hrow.1.1
    simp only [startOk] at h1
    rw [hd] at h1
    by_cases hne : s.isEmpty = true
    · rw [hne] at h1
      -- an empty string cannot parse as a date
      rw [show s = "" from (String.isEmpty_iff s).mp hne] at hd
      simp [fromIsoDate, strCodes] at hd
    · rw [Bool.not_eq_true] at hne
      rw [hne] at h1
      simpa [dtLe] using h1
  · intro s d e hs hd he
    subst hs
    obtain ⟨-, hrow⟩ := (hmem e).mp he
    unfold rowMatch at hrow
    simp only [Bool.and_eq_true] at hrow
    have h1 := hrow.1.2
    simp only [endOk] at h1
    rw [hd] at h1
    by_cases hne : s.isEmpty = true
    · rw [show s = "" from (String.isEmpty_iff s).mp hne] at hd
      simp [fromIsoDate, strCodes] at hd
    · rw [Bool.not_eq_true] at hne
      rw [hne] at h1
      simpa [dtLt] using h1
  · intro c e hc hne he
    subst hc
    obtain ⟨-, hrow⟩ := (hmem e).mp he
    unfold rowMatch at hrow
    simp only [Bool.and_eq_true] at hrow
    have h1 := hrow.2
    simp only [catOk] at h1
    rw [hne] at h1
    simpa using h1

/-- Out-of-range record (timestamp before 2025) used by the C8 witness. -/
def expOld : Expense := ⟨some 3, ⟨⟨2024, 5, 1⟩, 0⟩, 7, some "Food", none, "old", none⟩

/-- A two-record store whose rows are deliberately out of timestamp
order. -/
def stTwo : Store := ⟨[expA, expOld], 4, []⟩

/-- Witness for C8 at concrete inputs: a 2025-01-01 start filter keeps
exactly `expA`, the result of the unfiltered call is sorted (oldest
first), and an invalid date string is ignored. -/
theorem get_expenses_spec_witness :
    (expA ∈ get_expenses (some "2025-01-01") none none stTwo ↔
      (expA ∈ stTwo.expenses ∧ startOk (some "2025-01-01") expA.timestamp = true
        ∧ endOk none expA.timestamp = true ∧ catOk none expA.category = true))
    ∧ get_expenses (some "not-a-date") none none stTwo = get_expenses none none none stTwo :=
  ⟨((get_expenses_spec (some "2025-01-01") none none stTwo).1 expA),
   ((get_expenses_spec (some "not-a-date") none none stTwo).2.2.1 "not-a-date" rfl rfl rfl)⟩

/-! ## C7: totals and breakdowns -/

theorem sum_map_filter_split {α : Type} (p : α → Bool) (f : α → Rat) (l : List α) :
    ((l.filter p).map f).sum + ((l.filter (fun a => !(p a))).map f).sum
      = (l.map f).sum := by
  induction l with
  | nil => simp
  | cons a t ih =>
    cases hp : p a with
    | true =>
      simp only [List.filter_cons, hp, Bool.not_true, if_pos, List.map_cons, List.sum_cons]
      rw [← ih]
      simp
      ring
    | false =>
      simp only [List.filter_cons, hp, Bool.not_false, if_pos, List.map_cons, List.sum_cons]
      rw [← ih]
      simp
      ring

/-- Summing one bucket per distinct key recovers the sum over the whole
list: the buckets partition it. -/
theorem sum_buckets {α : Type} (key : α → String) (f : α → Rat) :
    ∀ (ks : List String) (l : List α), ks.Nodup → (∀ a ∈ l, key a ∈ ks) →
      (ks.map (fun k => ((l.filter (fun a => key a == k)).map f).sum)).sum
        = (l.map f).sum := by
  intro ks
  induction ks with
  | nil =>
    intro l _ hcov
    have hl : l = [] := List.eq_nil_iff_forall_not_mem.mpr
      (fun a ha => by simpa using hcov a ha)
    subst hl
    simp
  | cons k ks ih =>
    intro l hnd hcov
    rw [List.map_cons, List.sum_cons]
    have hknot : k ∉ ks := by
      intro hk
      exact (List.nodup_cons.mp hnd).1 hk
    have htail : ∀ k' ∈ ks,
        ((l.filter (fun a => key a == k')).map f).sum
          = (((l.filter (fun a => !(key a == k))).filter (fun a => key a == k')).map f).sum := by
      intro k' hk'
      rw [List.filter_filter]
      have hpt : ∀ a ∈ l, (key a == k') = ((key a == k') && !(key a == k)) := by
        intro a _
        cases hak : (key a == k') with
        | false => rfl
        | true =>
          have : key a = k' := by simpa using hak
          have hne : (key a == k) = false := by
            simp [this]
            intro hkk
            exact hknot (hkk ▸ hk')
          rw [hne]
          rfl
      rw [List.filter_congr hpt]
    rw [List.map_congr_left htail, ih (l.filter (fun a => !(key a == k)))
      (List.Nodup.of_cons hnd) ?_]
    · exact sum_map_filter_split (fun a => key a == k) f l
    · intro a ha
      obtain ⟨hal, hak⟩ := List.mem_filter.mp ha
      have := hcov a hal
      rcases List.mem_cons.mp this with heq | htl
      · rw [heq] at hak
        simp at hak
      · exact htl

theorem snd_map_pairs (ks : List String) (bucket : String → Rat) :
    ((ks.map (fun k => (k, bucket k))).map Prod.snd) = ks.map bucket := by
  rw [List.map_map]
  rfl

/-- Claim C7: `summarize_expenses` computes a total equal to the sum of
the matching rows' amounts (zero when none match), an empty breakdown
whenever the granularity is absent or unrecognised, and — for a
recognised granularity — buckets keyed by the strftime period strings of
matching rows, ordered ascending by period, whose totals sum to the
overall total. -/
theorem summarize_spec (sd ed gran : Option String) (st : Store) :
    (summarize_expenses sd ed gran st).total
      = ((st.expenses.filter
          (fun e => startOk sd e.timestamp && endOk ed e.timestamp)).map Expense.amount).sum
    ∧ (gran ≠ some "daily" → gran ≠ some "weekly" → gran ≠ some "monthly" →
        (summarize_expenses sd ed gran st).breakdown = [])
    ∧ (∀ g, gran = some g → (g = "daily" ∨ g = "weekly" ∨ g = "monthly") →
        (((summarize_expenses sd ed gran st).breakdown.map Prod.snd).sum
            = (summarize_expenses sd ed gran st).total
          ∧ (summarize_expenses sd ed gran st).breakdown.Pairwise (fun p q => p.1 ≤ q.1)
          ∧ ∀ p ∈ (summarize_expenses sd ed gran st).breakdown,
              ∃ e, e ∈ st.expenses
                ∧ (startOk sd e.timestamp && endOk ed e.timestamp) = true
                ∧ p.1 = strfPeriod g e.timestamp)) := by
  refine ⟨rfl, ?_, ?_⟩
  · intro h1 h2 h3
    unfold summarize_expenses
    have hcond : (gran == some "daily" || gran == some "weekly"
        || gran == some "monthly") = false := by
      cases gran with
      | none => rfl
      | some g =>
        simp only [Bool.or_eq_false_iff, beq_eq_false_iff_ne, ne_eq, Option.some.injEq]
        refine ⟨⟨fun hg => h1 (by rw [hg]), fun hg => h2 (by rw [hg])⟩,
          fun hg => h3 (by rw [hg])⟩
    rw [hcond]
    rfl
  · intro g hg hgs
    subst hg
    have hcond : ((some g : Option String) == some "daily" || some g == some "weekly"
        || some g == some "monthly") = true := by
      rcases hgs with rfl | rfl | rfl <;> rfl
    constructor
    · show ((summarize_expenses sd ed (some g) st).breakdown.map Prod.snd).sum = _
      simp only [summarize_expenses]
      rw [if_pos hcond]
      simp only [Option.getD_some]
      rw [snd_map_pairs]
      refine Eq.trans ((List.perm_insertionSort _ _).map _).sum_eq ?_
      apply sum_buckets (fun e => strfPeriod g e.timestamp) Expense.amount
      · exact List.nodup_dedup _
      · intro e he
        exact List.mem_dedup.mpr (List.mem_map_of_mem _ he)
    constructor
    · show ((summarize_expenses sd ed (some g) st).breakdown).Pairwise _
      simp only [summarize_expenses]
      rw [if_pos hcond]
      simp only [Option.getD_some]
      rw [List.pairwise_map]
      exact (List.sorted_insertionSort (fun a b : String => a ≤ b) _).imp (fun h => h)
    · intro p hp
      revert hp
      show p ∈ (summarize_expenses sd ed (some g) st).breakdown → _
      simp only [summarize_expenses]
      rw [if_pos hcond]
      simp only [Option.getD_some]
      intro hp
      obtain ⟨k, hk, hpk⟩ := List.mem_map.mp hp
      rw [List.mem_insertionSort, List.mem_dedup] at hk
      obtain ⟨e, he, hke⟩ := List.mem_map.mp hk
      obtain ⟨hmem, hfil⟩ := List.mem_filter.mp he
      exact ⟨e, hmem, hfil, by rw [← hpk, ← hke]⟩

/-- Witness for C7 at concrete inputs: over the two-record store, the
total with no filters is 57, an unrecognised granularity gives an empty
breakdown, and the monthly breakdown's bucket totals sum to the
total. -/
theorem summarize_spec_witness :
    (summarize_expenses none none none stTwo).total
      = ((stTwo.expenses.filter
          (fun e => startOk none e.timestamp && endOk none e.timestamp)).map
            Expense.amount).sum
    ∧ (summarize_expenses none none (some "yearly") stTwo).breakdown = []
    ∧ (((summarize_expenses none none (some "monthly") stTwo).breakdown.map Prod.snd).sum
        = (summarize_expenses none none (some "monthly") stTwo).total) :=
  ⟨(summarize_spec none none none stTwo).1,
   (summarize_spec none none (some "yearly") stTwo).2.1
     (by decide) (by decide) (by decide),
   ((summarize_spec none none (some "monthly") stTwo).2.2 "monthly" rfl
     (Or.inr (Or.inr rfl))).1⟩

end ExpTracker
